import Mathlib

/-!
Shallow embedding of the platform-statistics aggregation layer of the
Skill-sync repository, together with proofs settling the frozen claims.

Sources embedded:
- src/src/pages/Home.tsx: frontend aggregation (fetchPlatformData,
  getTotalSolved, getAllRecentSubmissions).
- src/src/api/leetcode.ts: LeetCode route handler (username cleaning and
  validation, GraphQL response extraction, error mapping).
- src/unnamed/part_006: two CodeChef route handler variants (HTML scrape
  extraction, monthly buckets, catch behaviour).

Modelling conventions:
- Strings are Lean String values; character-level operations work on the
  underlying List Char.  JS String.length agrees with the character count
  for the ASCII inputs these routes handle.
- JS regex-based global replacement with an empty replacement string is
  embedded as a left-to-right, non-overlapping literal-pattern scan
  (removeAll below); the alternation-free patterns used by the code
  (https?://, www., leetcode.com/(u/)?, codechef.com/users/) are each
  a priority list of literal strings, greedy alternative first.
- JS parseInt is embedded as jsParseInt: skip leading whitespace, optional
  sign, then a leading run of decimal digits, returning none when no digit
  is found (the NaN case).  The hexadecimal 0x auto-detection of radix-free
  parseInt is not modelled; the page texts parsed here are decimal, and the
  claims concern digit-free inputs, which both treatments send to none.
- Date handling is abstracted: a parsed date is represented by its time
  value (an integer) plus its calendar month (Fin 12), since a valid date
  always formats, via toLocaleString with month short, to one of the twelve
  standard three-letter abbreviations.  An invalid date (whose toISOString
  would throw) is represented by Option.none.
- Network effects are represented by explicit upstream-outcome values fed
  to the handlers; a thrown axios error carries the optional HTTP status of
  error.response.
-/

namespace SkillSync

/-- Whitespace characters trimmed by JS String.trim (ASCII subset). -/
def isWs (c : Char) : Bool :=
  c = ' ' || c = '\t' || c = '\n' || c = '\r'

/-- JS String.trim on a character list: drop whitespace from both ends. -/
def jsTrim (s : List Char) : List Char :=
  ((s.dropWhile isWs).reverse.dropWhile isWs).reverse

/-- JS (a || b) on strings: the empty string is falsy. -/
def jsOr (a b : String) : String :=
  if a = "" then b else a

/-- Boolean list-prefix test (own definition, structurally recursive). -/
def isPrefixB : List Char → List Char → Bool
  | [], _ => true
  | _ :: _, [] => false
  | c :: cs, d :: ds => c = d && isPrefixB cs ds

/-- Boolean substring test: some suffix of the haystack starts with the
needle.  Embeds JS String.includes. -/
def containsSub (needle : List Char) : List Char → Bool
  | [] => isPrefixB needle []
  | c :: cs => isPrefixB needle (c :: cs) || containsSub needle cs

/-- First pattern of the priority list that is a non-empty prefix of s.
One step of the JS global-replace scan. -/
def headMatch (pats : List (List Char)) (s : List Char) : Option (List Char) :=
  pats.find? (fun p => (decide (p ≠ [])) && isPrefixB p s)

/-- Fuelled left-to-right, non-overlapping removal of every occurrence of
the patterns (priority order at each position), with empty replacement.
Each step consumes at least one character, so fuel = length suffices. -/
def removeAllAux (pats : List (List Char)) : Nat → List Char → List Char
  | 0, s => s
  | fuel + 1, s =>
    match headMatch pats s with
    | some p => removeAllAux pats fuel (s.drop p.length)
    | none =>
      match s with
      | [] => []
      | c :: cs => c :: removeAllAux pats fuel cs

/-- JS s.replace(pattern-with-g-flag, empty string) for the literal
alternation patterns used by the handlers. -/
def removeAll (pats : List (List Char)) (s : List Char) : List Char :=
  removeAllAux pats s.length s

/-- JS s.replace(slash-at-end-of-string, empty): drop one trailing slash. -/
def stripTrailingSlash (s : List Char) : List Char :=
  if s.getLast? = some '/' then s.dropLast else s

/-- Patterns of the regex https?:// — greedy alternative first. -/
def httpPats : List (List Char) := [("https://").data, ("http://").data]

/-- Pattern of the regex www. (the dot matches any character in a regex,
but every occurrence the code targets is the literal www. host prefix;
the handlers rely on it only for that literal). -/
def wwwPats : List (List Char) := [("www.").data]

/-- Patterns of the regex leetcode.com/(u/)? — greedy alternative first. -/
def lcPats : List (List Char) := [("leetcode.com/u/").data, ("leetcode.com/").data]

/-- Patterns of the regex codechef.com/users/. -/
def ccPats : List (List Char) := [("codechef.com/users/").data]

/-- Username cleaning chain of src/src/api/leetcode.ts (lines 54-59):
strip scheme, www., leetcode profile path, one trailing slash, then trim. -/
def lcClean (s : List Char) : List Char :=
  jsTrim (stripTrailingSlash (removeAll lcPats (removeAll wwwPats (removeAll httpPats s))))

/-- String-level wrapper of lcClean. -/
def lcCleanStr (s : String) : String :=
  ⟨lcClean s.data⟩

/-- validateUsername of both CodeChef handler variants in
src/unnamed/part_006: the same stripping chain with the codechef profile
path, and no length or character restriction. -/
def ccClean (s : List Char) : List Char :=
  jsTrim (stripTrailingSlash (removeAll ccPats (removeAll wwwPats (removeAll httpPats s))))

/-- String-level wrapper of ccClean. -/
def ccCleanStr (s : String) : String :=
  ⟨ccClean s.data⟩

/-- Character class of the LeetCode username regex [a-zA-Z0-9-_]. -/
def allowedChar (c : Char) : Bool :=
  c.isAlpha || c.isDigit || c = '-' || c = '_'

/-- The inline validity check of getLeetCodeStats (leetcode.ts line 61):
nonempty, at most 39 characters, and only allowed characters. -/
def lcValid (s : List Char) : Bool :=
  (decide (s ≠ [])) && (decide (s.length ≤ 39)) && s.all allowedChar

/-- Numeric value of a run of decimal digit characters. -/
def digitsVal (ds : List Char) : Nat :=
  ds.foldl (fun a c => 10 * a + (c.toNat - ('0').toNat)) 0

/-- Leading decimal digit run of a string; none when the first character is
not a digit (the parseInt NaN case). -/
def leadDigits (s : List Char) : Option (List Char) :=
  match s.takeWhile Char.isDigit with
  | [] => none
  | ds => some ds

/-- Consume one optional leading sign character, returning the sign factor
and the remainder. -/
def jsSignSplit : List Char → (Int × List Char)
  | [] => (1, [])
  | c :: cs => if c = '-' then (-1, cs) else if c = '+' then (1, cs) else (1, c :: cs)

/-- JS parseInt with decimal radix: skip leading whitespace, optional sign,
then a leading digit run; none models NaN. -/
def jsParseInt (s : List Char) : Option Int :=
  (leadDigits (jsSignSplit (s.dropWhile isWs)).2).map
    (fun ds => (jsSignSplit (s.dropWhile isWs)).1 * (digitsVal ds : Int))

/-- JS (parseInt(s) || 0): NaN (and 0 itself) collapse to 0. -/
def parseIntOr0 (s : List Char) : Int :=
  match jsParseInt s with
  | some n => n
  | none => 0

/-- First maximal decimal digit run anywhere in the string: the regex
match of one-or-more-digits, group 0. -/
def firstDigitRun : List Char → Option (List Char)
  | [] => none
  | c :: cs =>
    if c.isDigit then some (c :: cs.takeWhile Char.isDigit)
    else firstDigitRun cs

/-- JS parseInt(s.match(digit-run) at 0 or else "0", 10): the first number
found in the text, defaulting to 0. -/
def firstNumOr0 (s : List Char) : Nat :=
  match firstDigitRun s with
  | some ds => digitsVal ds
  | none => 0

/-- JS s.split(open-parenthesis)[0]: the text before the first
opening parenthesis. -/
def splitParen (s : List Char) : List Char :=
  s.takeWhile (fun c => c ≠ '(')

/-- ASCII lower-casing of a string, character by character
(JS toLowerCase on the ASCII page texts involved). -/
def toLowerList (s : List Char) : List Char :=
  s.map Char.toLower

/-- The twelve standard three-letter month keys, in calendar order. -/
def monthNames : List String :=
  ["Jan", "Feb", "Mar", "Apr", "May", "Jun",
   "Jul", "Aug", "Sep", "Oct", "Nov", "Dec"]

/-- Three-letter abbreviation of a calendar month. -/
def monthName (m : Fin 12) : String :=
  (monthNames).getD m.val ("")

/-- The monthlyProgress initialiser: all twelve keys at zero
(leetcode.ts lines 125-129; part_006 lines 155-159 and 294-298). -/
def initMonthly : List (String × Nat) :=
  monthNames.map (fun m => (m, 0))

/-- Add k to the value at key m when the key is present; leave the map
unchanged otherwise.  This is exactly the guarded update of leetcode.ts
lines 137-139, and coincides with the unguarded ++ of the CodeChef
handlers because there the key always comes from monthName. -/
def addAt (m : String) (k : Nat) (l : List (String × Nat)) : List (String × Nat) :=
  l.map (fun p => if p.1 = m then (p.1, p.2 + k) else p)

/-- monthlyProgress of the LeetCode handler (leetcode.ts lines 124-141):
start from the twelve zero buckets and, when a submissionCalendar is
present, add each entry count to its formatted month bucket, guarded on
the key existing.  A calendar entry is represented by the month string its
epoch key formats to, paired with its count. -/
def lcBuildMonthly (cal : Option (List (String × Nat))) : List (String × Nat) :=
  match cal with
  | none => initMonthly
  | some entries => entries.foldl (fun acc e => addAt e.1 e.2 acc) initMonthly

/-! ## LeetCode route handler (src/src/api/leetcode.ts) -/

/-- matchedUser of the stats GraphQL response: acSubmissionNum collapsed to
its count fields (difficulty and submissions are never read), the profile
ranking and reputation (absent modelled as none), and the parsed
submissionCalendar (each epoch key represented by the month string it
formats to, paired with its count; none when the field is absent). -/
structure LCUser where
  acSubmissionNum : List Nat
  ranking : Option Int
  reputation : Option Int
  submissionCalendar : Option (List (String × Nat))

/-- data.data of the first GraphQL response. -/
structure LCData where
  matchedUser : Option LCUser
  allQuestionsCount : List Nat

/-- One entry of recentSubmissionList: title, statusDisplay and the epoch
timestamp (seconds). -/
structure LCRecent where
  title : String
  statusDisplay : String
  timestamp : Nat

/-- One entry of the recentSubmissions field the handler emits.  The ISO
string the code stores is represented by the epoch value it encodes. -/
structure LCSub where
  problem : String
  difficulty : String
  status : String
  timestamp : Nat
deriving DecidableEq

/-- The success body of the LeetCode route (interface LeetCodeStats). -/
structure LCStats where
  solved : Nat
  total : Nat
  rank : String
  rating : Int
  recentSubmissions : List LCSub
  monthlyProgress : List (String × Nat)
deriving DecidableEq

/-- Outcome of the two sequential upstream GraphQL calls: the first call
throws; or it succeeds and the second throws; or both succeed (with
recentSubmissionList possibly null).  A thrown axios error carries the
optional status of error.response. -/
inductive LCUpstream where
  | fail1 (status : Option Nat)
  | ok1fail2 (d : LCData) (status : Option Nat)
  | ok (d : LCData) (recent : Option (List LCRecent))

/-- A response of the LeetCode route: 200 with stats, or an error status
with the error message of the JSON body. -/
inductive LCResult where
  | stats (s : LCStats)
  | err (status : Nat) (msg : String)
deriving DecidableEq

/-- The catch block of getLeetCodeStats (leetcode.ts lines 183-214). -/
def lcCatch (st : Option Nat) : LCResult :=
  match st with
  | some 429 => .err 429 "Rate limit exceeded"
  | some 403 => .err 403 "Access denied"
  | some 404 => .err 404 "User not found"
  | some s => .err s ("Failed to fetch LeetCode stats")
  | none => .err 500 "Failed to fetch LeetCode stats"

/-- The success-path stats record (leetcode.ts lines 113-180). -/
def lcStatsOf (d : LCData) (user : LCUser) (recent : Option (List LCRecent)) : LCStats :=
  { solved := user.acSubmissionNum.foldl (fun a c => a + c) 0
    total := d.allQuestionsCount.foldl (fun a c => a + c) 0
    rank := match user.ranking with
            | some r => jsOr (toString r) "N/A"
            | none => "N/A"
    rating := match user.reputation with
              | some r => r
              | none => 0
    recentSubmissions := (recent.getD []).map (fun sub =>
      { problem := sub.title, difficulty := "Unknown",
        status := sub.statusDisplay, timestamp := sub.timestamp })
    monthlyProgress := lcBuildMonthly user.submissionCalendar }

/-- getLeetCodeStats (leetcode.ts lines 47-215): clean the username,
reject invalid ones with 400, return 404 when matchedUser is empty, map
thrown errors through the catch block, and otherwise emit the stats. -/
def getLeetCodeStats (raw : String) (up : LCUpstream) : LCResult :=
  let username := lcCleanStr raw
  if ¬ (lcValid username.data = true) then
    .err 400 "Invalid username format"
  else
    match up with
    | .fail1 st => lcCatch st
    | .ok1fail2 d st =>
      match d.matchedUser with
      | none => .err 404 "User not found"
      | some _ => lcCatch st
    | .ok d recent =>
      match d.matchedUser with
      | none => .err 404 "User not found"
      | some user => .stats (lcStatsOf d user recent)

/-- The solved field of a 200 response, none on an error response. -/
def lcSolvedOf : LCResult → Option Nat
  | .stats s => some s.solved
  | .err _ _ => none

/-- HTTP status of a LeetCode route response (res.json defaults to 200). -/
def lcStatusOf : LCResult → Nat
  | .stats _ => 200
  | .err s _ => s

/-- Failure taxonomy of spec §3 and §7. -/
inductive FailReason where
  | NotFound
  | RateLimited
  | UpstreamError
  | InvalidHandle
deriving DecidableEq

/-- Modelled from the spec: the taxonomy of §7 keyed by HTTP status —
404 is NotFound, 429 is RateLimited, 400 is InvalidHandle, any other
non-2xx is UpstreamError, and a 2xx is not a failure. -/
def reasonOfStatus (s : Nat) : Option FailReason :=
  if 200 ≤ s ∧ s < 300 then none
  else if s = 404 then some .NotFound
  else if s = 429 then some .RateLimited
  else if s = 400 then some .InvalidHandle
  else some .UpstreamError

/-! ## CodeChef route handlers (src/unnamed/part_006, two variants) -/

/-- A recent-submission entry as the CodeChef handlers store it.  The ISO
timestamp string is represented by the time value of the parsed date, and
the calendar month of that date is carried alongside because the monthly
buckets are keyed by the formatted month of the same date. -/
structure CCSub where
  problem : String
  difficulty : String
  status : String
  timestamp : Int
  month : Fin 12
deriving DecidableEq

/-- A badge entry of variant 1 (interface CodeChefBadge). -/
structure CCBadge where
  name : String
  current_level : String
  problems_solved : Nat
  problems_needed_next : Nat
deriving DecidableEq

/-- One submissions-table row of variant 1: the four cell texts the code
reads, plus the parsed date (none when new Date(...).toISOString() would
throw on the timestamp text). -/
structure CCRow where
  ts : String
  problem : String
  status : String
  diff3 : String
  diffInner : String
  date : Option (Int × Fin 12)
deriving DecidableEq

/-- The scraped profile page as variant 1 queries it: the cheerio selector
results, each text already extracted (and trimmed where the code trims). -/
structure CCPage1 where
  errorMessage : Bool
  invalidUsernameText : Bool
  ratingHeader : String
  ratingNumber : String
  rankHeader : String
  ratingRanks : String
  problemsSolved : Option (List (String × String))
  altSolvedText : String
  badgeCards : List (String × String × String)
  submissions : List CCRow

/-- Outcome of the single axios GET of a CodeChef handler: the request
throws (with the optional status of error.response), or the page loads. -/
inductive CCFetch1 where
  | httpError (status : Option Nat)
  | page (p : CCPage1)

/-- Solved-count extraction of variant 1 when the problems-solved section
is present (lines 87-94): sum the first number of the content adjacent to
each h5 whose text mentions Fully Solved or Partially Solved. -/
def ccSolvedSection (entries : List (String × String)) : Nat :=
  entries.foldl (fun acc e =>
    if containsSub ("Fully Solved").data e.1.data
        || containsSub ("Partially Solved").data e.1.data
    then acc + firstNumOr0 e.2.data
    else acc) 0

/-- Solved-count extraction of variant 1 (lines 83-99): the section sum
when the section exists, else the first number of the fallback selector
text. -/
def ccSolved1 (p : CCPage1) : Nat :=
  match p.problemsSolved with
  | some entries => ccSolvedSection entries
  | none => firstNumOr0 p.altSolvedText.data

/-- Second capture group of the regex digits-slash-digits, tried at the
start of the string: a digit run, optional whitespace, a slash, optional
whitespace, a digit run.  Backtracking the greedy first run cannot help
(a shorter run leaves a digit where the slash must be), so maximal-run
matching is exact. -/
def slashSecondAt (s : List Char) : Option Nat :=
  match s.takeWhile Char.isDigit with
  | [] => none
  | _ :: _ =>
    match (s.dropWhile Char.isDigit).dropWhile isWs with
    | '/' :: r3 =>
      match (r3.dropWhile isWs).takeWhile Char.isDigit with
      | [] => none
      | ds => some (digitsVal ds)
    | _ => none

/-- First match of the digits-slash-digits regex anywhere in the string,
returning its second capture group. -/
def slashSecond : List Char → Option Nat
  | [] => none
  | c :: cs =>
    match slashSecondAt (c :: cs) with
    | some v => some v
    | none => slashSecond cs

/-- JS parseInt(second capture or else "0", 10). -/
def slashSecondOr0 (s : List Char) : Nat :=
  (slashSecond s).getD 0

/-- Badge extraction of variant 1 (lines 104-121): each card with a
nonempty name contributes its name, its level (Beginner when empty), the
first number of the progress text and the second number of its
digits-slash-digits pattern. -/
def ccBadges1 (cards : List (String × String × String)) : List CCBadge :=
  cards.foldl (fun acc card =>
    if card.1 ≠ "" then
      acc ++ [{ name := card.1,
                current_level := jsOr card.2.1 ("Beginner"),
                problems_solved := firstNumOr0 card.2.2.data,
                problems_needed_next := slashSecondOr0 card.2.2.data }]
    else acc) []

/-- Recent-submission extraction of variant 1 (lines 126-150): first ten
rows, kept when timestamp text and problem are nonempty and the date
parses; difficulty falls back from cell 3 to the inner difficulty element
to Unknown, status falls back to Unknown. -/
def ccRecent1 (rows : List CCRow) : List CCSub :=
  (rows.take 10).filterMap (fun r =>
    if r.ts ≠ "" ∧ r.problem ≠ "" then
      match r.date with
      | some tm =>
        some { problem := r.problem,
               difficulty := jsOr (jsOr r.diff3 r.diffInner) "Unknown",
               status := jsOr r.status ("Unknown"),
               timestamp := tm.1, month := tm.2 }
      | none => none
    else none)

/-- Monthly buckets of variant 1 (lines 154-166): one per kept submission
whose stored status mentions accepted (case-insensitively), keyed by the
formatted month of its timestamp. -/
def ccMonthly1 (subs : List CCSub) : List (String × Nat) :=
  subs.foldl (fun acc sub =>
    if containsSub ("accepted").data (toLowerList sub.status.data)
    then addAt (monthName sub.month) 1 acc
    else acc) initMonthly

/-- The response body of variant 1 (interface CodeChefStats, first form). -/
structure CCStats1 where
  platform : String
  username : String
  solved : Nat
  total : Nat
  rank : String
  rating : Int
  badges : List CCBadge
  monthlyProgress : List (String × Nat)
  recentSubmissions : List CCSub
deriving DecidableEq

/-- The zero-valued fallback body of the variant 1 catch (lines 186-200). -/
def ccZero1 (u : String) : CCStats1 :=
  { platform := "CodeChef", username := u, solved := 0, total := 5000,
    rank := "N/A", rating := 0, badges := [], monthlyProgress := initMonthly,
    recentSubmissions := [] }

/-- Variant 1 route handler (part_006 lines 44-202): every response is a
stats body; a thrown request error or a detected missing user yields the
zero-valued body with status 200, the success path yields the extracted
stats (res.json defaults to 200 as well). -/
def ccHandler1 (raw : String) (f : CCFetch1) : Nat × CCStats1 :=
  let u := ccCleanStr raw
  match f with
  | .httpError _ => (200, ccZero1 u)
  | .page p =>
    if p.errorMessage || p.invalidUsernameText then (200, ccZero1 u)
    else
      (200,
       { platform := "CodeChef", username := u,
         solved := ccSolved1 p, total := 5000,
         rank := jsOr (jsOr p.rankHeader p.ratingRanks) "N/A",
         rating := parseIntOr0 (jsOr p.ratingHeader p.ratingNumber).data,
         badges := ccBadges1 p.badgeCards,
         monthlyProgress := ccMonthly1 (ccRecent1 p.submissions),
         recentSubmissions := ccRecent1 p.submissions })

/-- One submissions-list row of variant 2: the three cell texts and the
parsed date. -/
structure CCRow2 where
  ts : String
  problem : String
  status : String
  date : Option (Int × Fin 12)
deriving DecidableEq

/-- The scraped profile page as variant 2 queries it. -/
structure CCPage2 where
  userDetailsContainer : Bool
  ratingNumber : String
  ratingRanks : String
  h5entries : List (String × String)
  submissions : List CCRow2

/-- Outcome of the axios GET of variant 2. -/
inductive CCFetch2 where
  | httpError (status : Option Nat)
  | page (p : CCPage2)

/-- Solved-count extraction of variant 2 (lines 271-286): for each h5 of
the problems-solved section, parse the content before the first
parenthesis, and add it once under a Fully Solved header and once under a
Partially Solved header. -/
def ccSolved2 (entries : List (String × String)) : Int :=
  entries.foldl (fun acc e =>
    let c := parseIntOr0 (jsTrim (splitParen e.2.data))
    (acc + (if containsSub ("Fully Solved").data e.1.data then c else 0))
      + (if containsSub ("Partially Solved").data e.1.data then c else 0)) 0

/-- Recent-submission extraction of variant 2 (lines 302-328): first ten
rows, kept when timestamp and problem are nonempty and the date parses;
difficulty is the constant Unknown. -/
def ccRecent2 (rows : List CCRow2) : List CCSub :=
  (rows.take 10).filterMap (fun r =>
    if r.ts ≠ "" ∧ r.problem ≠ "" then
      (r.date).map (fun tm =>
        { problem := r.problem, difficulty := "Unknown",
          status := jsOr r.status ("Unknown"),
          timestamp := tm.1, month := tm.2 })
    else none)

/-- Monthly buckets of variant 2, filled in the same pass as the kept
submissions, gated on the raw status text mentioning accepted. -/
def ccMonthly2 (rows : List CCRow2) : List (String × Nat) :=
  (rows.take 10).foldl (fun acc r =>
    if r.ts ≠ "" ∧ r.problem ≠ "" then
      match r.date with
      | some tm =>
        if containsSub ("accepted").data (toLowerList r.status.data)
        then addAt (monthName tm.2) 1 acc
        else acc
      | none => acc
    else acc) initMonthly

/-- The response body of variant 2 (interface CodeChefStats, second form). -/
structure CCStats2 where
  solved : Int
  total : Nat
  rank : String
  rating : Int
  recentSubmissions : List CCSub
  monthlyProgress : List (String × Nat)
deriving DecidableEq

/-- A response of variant 2: 200 with stats, or an error status with the
error message of the JSON body. -/
inductive CCResult2 where
  | stats (s : CCStats2)
  | err (status : Nat) (msg : String)
deriving DecidableEq

/-- Variant 2 route handler (part_006 lines 238-353): a missing
user-details container throws User not found, which the catch maps to
404; a thrown request error maps 429 to 429, 404 to 404, any other to its
own status or 500; the success path emits the extracted stats.  The
cleaned username of this variant only feeds the request URL, which the
upstream-outcome argument abstracts, so it does not appear in the body. -/
def ccHandler2 (_raw : String) (f : CCFetch2) : CCResult2 :=
  match f with
  | .httpError st =>
    match st with
    | some 429 => .err 429 "Rate limit exceeded"
    | some 404 => .err 404 "User not found"
    | some s => .err s ("Failed to fetch CodeChef stats")
    | none => .err 500 "Failed to fetch CodeChef stats"
  | .page p =>
    if p.userDetailsContainer = false then .err 404 "User not found"
    else
      .stats { solved := ccSolved2 p.h5entries, total := 5000,
               rank := jsOr p.ratingRanks ("N/A"),
               rating := parseIntOr0 p.ratingNumber.data,
               recentSubmissions := ccRecent2 p.submissions,
               monthlyProgress := ccMonthly2 p.submissions }

/-- HTTP status of a variant 2 response (res.json defaults to 200). -/
def ccStatus2 : CCResult2 → Nat
  | .stats _ => 200
  | .err s _ => s

/-! ## Frontend aggregation (src/src/pages/Home.tsx) -/

/-- interface PlatformSubmission: the timestamp string is represented by
the time value new Date(timestamp).getTime() parses it to, since the only
use of the field is that comparison and display. -/
structure FSub where
  problem : String
  timestamp : Int
  difficulty : Option String
  status : Option String
deriving DecidableEq

/-- The per-platform entry of interface PlatformStats. -/
structure FStats where
  solved : Nat
  total : Nat
  rating : Int
  recentSubmissions : List FSub
deriving DecidableEq

/-- One platform entry of INITIAL_PLATFORM_STATS (lines 45-64). -/
def initialPlatformStats : FStats :=
  { solved := 0, total := 0, rating := 0, recentSubmissions := [] }

/-- The platformStats record: one entry per platform, always all three. -/
structure FRecord where
  leetcode : FStats
  hackerrank : FStats
  codechef : FStats
deriving DecidableEq

/-- fetchPlatformData (Home.tsx lines 83-92): an unconfigured username
short-circuits to the initial zero entry; a failed request is caught and
also yields the initial zero entry; a success yields the response body. -/
def fetchPlatformData (username : Option String) (resp : Except Unit FStats) : FStats :=
  match username with
  | none => initialPlatformStats
  | some _ =>
    match resp with
    | .ok d => d
    | .error _ => initialPlatformStats

/-- The Promise.all of the three fetches and the setPlatformStats record
(lines 94-104).  Each platform is given its configured username (if any)
and the outcome its request would settle to. -/
def aggregateStats (lc hr cc : Option String × Except Unit FStats) : FRecord :=
  { leetcode := fetchPlatformData lc.1 lc.2,
    hackerrank := fetchPlatformData hr.1 hr.2,
    codechef := fetchPlatformData cc.1 cc.2 }

/-- getTotalSolved (lines 116-122): the sum over all three entries. -/
def getTotalSolved (r : FRecord) : Nat :=
  r.leetcode.solved + r.hackerrank.solved + r.codechef.solved

/-- The keyed entry list of the platformStats object: the object literal
always carries exactly these three keys. -/
def perPlatformEntries (r : FRecord) : List (String × FStats) :=
  [("leetcode", r.leetcode), ("hackerrank", r.hackerrank), ("codechef", r.codechef)]

/-- Modelled from the spec: the solved contribution of one identity
counted over successes only — the solved field when the platform is
configured and its fetch succeeded, zero otherwise. -/
def specSuccessSolved (idp : Option String × Except Unit FStats) : Nat :=
  match idp with
  | (some _, .ok d) => d.solved
  | _ => 0

/-- A submission tagged with its platform name (the spread with the added
platform field, lines 160-173). -/
structure TaggedSub where
  sub : FSub
  platform : String
deriving DecidableEq

/-- The flattening of the three platforms recentSubmissions lists, each
tagged with its platform name, in the order the code concatenates them. -/
def taggedSubmissions (r : FRecord) : List TaggedSub :=
  r.leetcode.recentSubmissions.map (fun s => { sub := s, platform := "LeetCode" })
    ++ r.hackerrank.recentSubmissions.map (fun s => { sub := s, platform := "HackerRank" })
    ++ r.codechef.recentSubmissions.map (fun s => { sub := s, platform := "CodeChef" })

/-- The ordering the sort comparator b.timestamp minus a.timestamp
realises: descending by timestamp. -/
def tsGE (a b : TaggedSub) : Prop :=
  b.sub.timestamp ≤ a.sub.timestamp

instance : DecidableRel tsGE := fun a b => by
  unfold tsGE; infer_instance

instance : IsTotal TaggedSub tsGE :=
  ⟨fun a b => le_total b.sub.timestamp a.sub.timestamp⟩

instance : IsTrans TaggedSub tsGE :=
  ⟨fun _ _ _ h h' => le_trans h' h⟩

/-- getAllRecentSubmissions (lines 157-178): flatten and tag, sort by the
descending-timestamp comparator (a stable sort, as Array.prototype.sort
is), and slice the first five.  Insertion sort processing from the right
with a place-before-on-greater-or-equal test is stable, hence a faithful
model of the engine sort under this comparator. -/
def getAllRecentSubmissions (r : FRecord) : List TaggedSub :=
  (List.insertionSort tsGE (taggedSubmissions r)).take 5

/-! ## Concrete inputs used by witnesses and counterexamples -/

/-- A 40-character handle: one character beyond the 39-character limit. -/
def w40 : String := "aaaaaaaaaaaaaaaaaaaaaaaaaaaaaaaaaaaaaaaa"

/-- A loaded CodeChef profile page without the user-details container. -/
def ccGhostPage : CCPage2 :=
  { userDetailsContainer := false, ratingNumber := "", ratingRanks := "",
    h5entries := [], submissions := [] }

/-- A loaded CodeChef profile page with the user-details container. -/
def ccOkPage : CCPage2 :=
  { userDetailsContainer := true, ratingNumber := "1500", ratingRanks := "123",
    h5entries := [], submissions := [] }

/-- A loaded CodeChef page variant 1 treats as a missing user. -/
def ccFailPage1 : CCPage1 :=
  { errorMessage := true, invalidUsernameText := false, ratingHeader := "",
    ratingNumber := "", rankHeader := "", ratingRanks := "",
    problemsSolved := none, altSolvedText := "", badgeCards := [],
    submissions := [] }

/-- The matchedUser of the spec scenario: two accepted-submission buckets
of counts 10 and 5. -/
def lcAliceUser : LCUser :=
  { acSubmissionNum := [10, 5], ranking := none, reputation := none,
    submissionCalendar := none }

/-- The stats-call response of the spec scenario. -/
def lcAliceData : LCData :=
  { matchedUser := some lcAliceUser, allQuestionsCount := [] }

/-! ## Supporting lemmas: monthly buckets -/

theorem keys_addAt (m : String) (k : Nat) (l : List (String × Nat)) :
    (addAt m k l).map Prod.fst = l.map Prod.fst := by
  induction l with
  | nil => rfl
  | cons p ps ih =>
    simp only [addAt, List.map_cons] at ih ⊢
    refine congrArg₂ _ ?_ ih
    split <;> rfl

theorem keys_foldl {α : Type} (st : List (String × Nat) → α → List (String × Nat))
    (h : ∀ acc a, (st acc a).map Prod.fst = acc.map Prod.fst) (l : List α) :
    ∀ init, (l.foldl st init).map Prod.fst = init.map Prod.fst := by
  induction l with
  | nil => intro init; rfl
  | cons a as ih => intro init; rw [List.foldl_cons, ih, h]

theorem keys_initMonthly : initMonthly.map Prod.fst = monthNames := by
  decide

theorem keys_lcBuildMonthly (cal : Option (List (String × Nat))) :
    (lcBuildMonthly cal).map Prod.fst = monthNames := by
  cases cal with
  | none => exact keys_initMonthly
  | some entries =>
    show (entries.foldl (fun acc e => addAt e.1 e.2 acc) initMonthly).map Prod.fst = monthNames
    rw [keys_foldl (fun acc e => addAt e.1 e.2 acc) (fun acc e => keys_addAt e.1 e.2 acc)
      entries initMonthly]
    exact keys_initMonthly

theorem keys_ccMonthly1 (subs : List CCSub) :
    (ccMonthly1 subs).map Prod.fst = monthNames := by
  unfold ccMonthly1
  rw [keys_foldl _ ?_]
  · exact keys_initMonthly
  · intro acc sub
    split
    · exact keys_addAt _ _ _
    · rfl

/-! ## Supporting lemmas: digit-free parsing -/

theorem takeWhile_nil_of_all {p : Char → Bool} {l : List Char}
    (h : ∀ c ∈ l, p c = false) : l.takeWhile p = [] := by
  cases l with
  | nil => rfl
  | cons c cs =>
    have := h c (List.mem_cons_self c cs)
    simp [List.takeWhile_cons, this]

theorem dropWhile_self_of_all {p : Char → Bool} {l : List Char}
    (h : ∀ c ∈ l, p c = false) : l.dropWhile p = l := by
  cases l with
  | nil => rfl
  | cons c cs =>
    have := h c (List.mem_cons_self c cs)
    simp [List.dropWhile_cons, this]

theorem mem_of_mem_dropWhile {p : Char → Bool} {l : List Char} {c : Char}
    (h : c ∈ l.dropWhile p) : c ∈ l :=
  (List.dropWhile_sublist p).subset h

theorem mem_of_mem_takeWhile {p : Char → Bool} {l : List Char} {c : Char}
    (h : c ∈ l.takeWhile p) : c ∈ l :=
  (List.takeWhile_sublist p).subset h

theorem mem_of_mem_jsTrim {l : List Char} {c : Char} (h : c ∈ jsTrim l) : c ∈ l := by
  unfold jsTrim at h
  rw [List.mem_reverse] at h
  have h2 := mem_of_mem_dropWhile h
  rw [List.mem_reverse] at h2
  exact mem_of_mem_dropWhile h2

theorem mem_jsSignSplit_snd {l : List Char} {x : Char}
    (h : x ∈ (jsSignSplit l).2) : x ∈ l := by
  cases l with
  | nil => exact h
  | cons c cs =>
    have h' : x ∈ (if c = '-' then ((-1 : Int), cs)
        else if c = '+' then ((1 : Int), cs) else ((1 : Int), c :: cs)).2 := h
    by_cases h1 : c = '-'
    · rw [if_pos h1] at h'
      exact List.mem_cons_of_mem c h'
    · rw [if_neg h1] at h'
      by_cases h2 : c = '+'
      · rw [if_pos h2] at h'
        exact List.mem_cons_of_mem c h'
      · rw [if_neg h2] at h'
        exact h'

theorem leadDigits_none_of_digitFree {t : List Char}
    (h : ∀ x ∈ t, x.isDigit = false) : leadDigits t = none := by
  unfold leadDigits
  rw [takeWhile_nil_of_all h]

theorem jsParseInt_none_of_digitFree {s : List Char}
    (h : ∀ c ∈ s, c.isDigit = false) : jsParseInt s = none := by
  unfold jsParseInt
  rw [leadDigits_none_of_digitFree (fun x hx =>
    h x (mem_of_mem_dropWhile (mem_jsSignSplit_snd hx)))]
  rfl

theorem parseIntOr0_zero_of_digitFree {s : List Char}
    (h : ∀ c ∈ s, c.isDigit = false) : parseIntOr0 s = 0 := by
  unfold parseIntOr0
  rw [jsParseInt_none_of_digitFree h]

theorem firstDigitRun_none_of_digitFree {s : List Char}
    (h : ∀ c ∈ s, c.isDigit = false) : firstDigitRun s = none := by
  induction s with
  | nil => rfl
  | cons c cs ih =>
    have hc := h c (List.mem_cons_self c cs)
    unfold firstDigitRun
    rw [hc]
    exact ih (fun x hx => h x (List.mem_cons_of_mem c hx))

theorem firstNumOr0_zero_of_digitFree {s : List Char}
    (h : ∀ c ∈ s, c.isDigit = false) : firstNumOr0 s = 0 := by
  unfold firstNumOr0
  rw [firstDigitRun_none_of_digitFree h]

/-! ## Supporting lemmas: the global-replace scan -/

theorem isPrefixB_iff (p : List Char) : ∀ s, isPrefixB p s = true ↔ p <+: s := by
  induction p with
  | nil =>
    intro s
    simp [isPrefixB, List.nil_prefix]
  | cons c cs ih =>
    intro s
    cases s with
    | nil =>
      simp [isPrefixB]
    | cons d ds =>
      simp [isPrefixB, List.cons_prefix_cons, ih ds]

theorem headMatch_nil (pats : List (List Char)) : headMatch pats [] = none := by
  unfold headMatch
  rw [List.find?_eq_none]
  intro p _
  cases p with
  | nil => simp
  | cons c cs => simp [isPrefixB]

theorem headMatch_some {pats : List (List Char)} {s p : List Char}
    (h : headMatch pats s = some p) : p ≠ [] ∧ p <+: s := by
  have h2 := List.find?_some h
  rw [Bool.and_eq_true, decide_eq_true_eq] at h2
  exact ⟨h2.1, (isPrefixB_iff p s).mp h2.2⟩

theorem removeAllAux_nil (pats : List (List Char)) :
    ∀ f, removeAllAux pats f [] = [] := by
  intro f
  cases f with
  | zero => rfl
  | succ n => simp [removeAllAux, headMatch_nil]

theorem removeAllAux_fuel (pats : List (List Char)) :
    ∀ f₁ : Nat, ∀ s : List Char, ∀ f₂ : Nat, s.length ≤ f₁ → s.length ≤ f₂ →
      removeAllAux pats f₁ s = removeAllAux pats f₂ s := by
  intro f₁
  induction f₁ with
  | zero =>
    intro s f₂ h1 _
    have hs : s = [] := List.eq_nil_of_length_eq_zero (Nat.le_zero.mp h1)
    subst hs
    rw [removeAllAux_nil, removeAllAux_nil]
  | succ n ih =>
    intro s f₂ h1 h2
    cases s with
    | nil => rw [removeAllAux_nil, removeAllAux_nil]
    | cons c cs =>
      cases f₂ with
      | zero =>
        exact absurd h2 (by simp)
      | succ m =>
        cases hm : headMatch pats (c :: cs) with
        | some p =>
          obtain ⟨hne, hpre⟩ := headMatch_some hm
          have hplen : 1 ≤ p.length := List.length_pos.mpr hne
          have hsln : p.length ≤ (c :: cs).length := hpre.length_le
          simp only [removeAllAux, hm]
          apply ih
          · rw [List.length_drop]
            simp only [List.length_cons] at h1 ⊢
            omega
          · rw [List.length_drop]
            simp only [List.length_cons] at h2 ⊢
            omega
        | none =>
          simp only [removeAllAux, hm]
          have h1' : cs.length ≤ n := by
            simp only [List.length_cons] at h1
            omega
          have h2' : cs.length ≤ m := by
            simp only [List.length_cons] at h2
            omega
          rw [ih cs m h1' h2']

theorem removeAll_cons_none {pats : List (List Char)} {c : Char} {cs : List Char}
    (h : headMatch pats (c :: cs) = none) :
    removeAll pats (c :: cs) = c :: removeAll pats cs := by
  unfold removeAll
  simp only [List.length_cons, removeAllAux, h]

theorem removeAll_some {pats : List (List Char)} {s p : List Char}
    (h : headMatch pats s = some p) :
    removeAll pats s = removeAll pats (s.drop p.length) := by
  obtain ⟨hne, hpre⟩ := headMatch_some h
  have hplen : 1 ≤ p.length := List.length_pos.mpr hne
  cases s with
  | nil =>
    exact absurd (List.prefix_nil.mp hpre) hne
  | cons c cs =>
    have hsln : p.length ≤ (c :: cs).length := hpre.length_le
    unfold removeAll
    simp only [List.length_cons, removeAllAux, h]
    apply removeAllAux_fuel
    · rw [List.length_drop]
      simp only [List.length_cons] at hsln ⊢
      omega
    · exact Nat.le_refl _

theorem removeAll_id_of_noMatch {pats : List (List Char)} {s : List Char}
    (h : ∀ t, t <:+ s → headMatch pats t = none) : removeAll pats s = s := by
  induction s with
  | nil => rfl
  | cons c cs ih =>
    rw [removeAll_cons_none (h (c :: cs) (List.suffix_refl _))]
    rw [ih (fun t ht => h t (ht.trans (List.suffix_cons c cs)))]

theorem headMatch_none_of_missing {pats : List (List Char)} {s : List Char}
    (h : ∀ p ∈ pats, ∃ c, c ∈ p ∧ c ∉ s) : headMatch pats s = none := by
  unfold headMatch
  rw [List.find?_eq_none]
  intro p hp hcontra
  obtain ⟨c, hcp, hcs⟩ := h p hp
  rw [Bool.and_eq_true] at hcontra
  exact hcs (((isPrefixB_iff p s).mp hcontra.2).subset hcp)

theorem removeAll_id_of_missing {pats : List (List Char)} {s : List Char}
    (h : ∀ p ∈ pats, ∃ c, c ∈ p ∧ c ∉ s) : removeAll pats s = s :=
  removeAll_id_of_noMatch (fun t ht => headMatch_none_of_missing
    (fun p hp => by
      obtain ⟨c, hcp, hcs⟩ := h p hp
      exact ⟨c, hcp, fun hct => hcs (ht.subset hct)⟩))

theorem removeAll_append_of_headChar {pats : List (List Char)} {a t : List Char}
    (h : ∀ p ∈ pats, ∀ c, p.head? = some c → c ∉ a) :
    removeAll pats (a ++ t) = a ++ removeAll pats t := by
  induction a with
  | nil => simp
  | cons c a' ih =>
    have hnone : headMatch pats (c :: (a' ++ t)) = none := by
      unfold headMatch
      rw [List.find?_eq_none]
      intro p hp hcontra
      rw [Bool.and_eq_true] at hcontra
      cases p with
      | nil => simp at hcontra
      | cons q qs =>
        have hq : q ∉ c :: a' := h (q :: qs) hp q rfl
        have hqc : q = c := by
          have h3 := hcontra.2
          simp only [isPrefixB, Bool.and_eq_true, decide_eq_true_eq] at h3
          exact h3.1
        exact hq (hqc ▸ List.mem_cons_self q (a' : List Char))
    rw [List.cons_append, removeAll_cons_none hnone,
      ih (fun p hp c' hc' hm => h p hp c' hc' (List.mem_cons_of_mem c hm))]
    rfl

theorem removeAll_consume {p₁ : List Char} {rest : List (List Char)} {t : List Char}
    (hne : p₁ ≠ []) :
    removeAll (p₁ :: rest) (p₁ ++ t) = removeAll (p₁ :: rest) t := by
  have hfind : headMatch (p₁ :: rest) (p₁ ++ t) = some p₁ := by
    unfold headMatch
    apply List.find?_cons_of_pos
    rw [Bool.and_eq_true]
    exact ⟨decide_eq_true hne, (isPrefixB_iff _ _).mpr (List.prefix_append p₁ t)⟩
  rw [removeAll_some hfind, List.drop_left]

theorem jsTrim_self {l : List Char} (h : ∀ c ∈ l, isWs c = false) : jsTrim l = l := by
  unfold jsTrim
  rw [dropWhile_self_of_all h]
  rw [dropWhile_self_of_all (fun c hc => h c (List.mem_reverse.mp hc))]
  exact List.reverse_reverse l

theorem allowedChar_not_ws {c : Char} (h : allowedChar c = true) : isWs c = false := by
  cases hx : isWs c
  · rfl
  · exfalso
    unfold isWs at hx
    simp only [Bool.or_eq_true, decide_eq_true_eq] at hx
    rcases hx with ((h1 | h1) | h1) | h1 <;> subst h1 <;> exact absurd h (by decide)

theorem lcCatch_ne_stats (st : Option Nat) (s : LCStats) : lcCatch st ≠ .stats s := by
  unfold lcCatch
  split <;> exact fun h => LCResult.noConfusion h

/-! ## Claims -/

/-- C1, counterexample: an aggregation over one configured identity whose
fetch fails (N = 1, K = 1) should, per the claim, leave perPlatform with
zero entries; the code instead always produces all three platform entries,
the failed one present as the zero-valued initial record rather than
absent. -/
theorem c1_perPlatform_counterexample :
    (perPlatformEntries (aggregateStats (some "alice", Except.error ())
      (none, Except.error ()) (none, Except.error ()))).length = 3
    ∧ (perPlatformEntries (aggregateStats (some "alice", Except.error ())
      (none, Except.error ()) (none, Except.error ()))).length ≠ 0
    ∧ (aggregateStats (some "alice", Except.error ())
      (none, Except.error ()) (none, Except.error ())).leetcode
        = initialPlatformStats := by
  decide

/-- C1, amended: the aggregation always keeps all three platform entries
in the record, a failed or unconfigured platform appearing as the
zero-valued initial entry; totalSolved, summed over all entries, equals
the sum of solved over exactly the successful configured identities,
because every other entry contributes zero. -/
theorem c1_totalSolved_amended (lc hr cc : Option String × Except Unit FStats) :
    (perPlatformEntries (aggregateStats lc hr cc)).length = 3
    ∧ getTotalSolved (aggregateStats lc hr cc)
        = specSuccessSolved lc + specSuccessSolved hr + specSuccessSolved cc := by
  constructor
  · rfl
  · have key : ∀ idp : Option String × Except Unit FStats,
        (fetchPlatformData idp.1 idp.2).solved = specSuccessSolved idp := by
      rintro ⟨u, r⟩
      cases u <;> cases r <;> rfl
    simp only [getTotalSolved, aggregateStats]
    rw [key lc, key hr, key cc]

/-- C2, counterexample: on a loaded page without the user-details
container, handler variant 2 throws User not found and its catch returns
HTTP 404, not a 200 with zero-valued stats. -/
theorem c2_codechef_counterexample :
    ccHandler2 "ghost-user" (.page ccGhostPage) = .err 404 "User not found"
    ∧ ccStatus2 (ccHandler2 "ghost-user" (.page ccGhostPage)) ≠ 200 := by
  decide

/-- C2, amended: handler variant 1 returns HTTP 200 with the zero-valued
stats record on every scrape failure (request error, or a page flagged as
a missing user), while handler variant 2 maps failures to error statuses:
404 for a page without the user-details container, 429 for an upstream
429, 404 for an upstream 404, any other upstream status passed through as
its own error status, and 500 for an error without a status.  In both
variants the catch absorbs the failure, so no exception reaches the
caller. -/
theorem c2_codechef_failure_amended :
    (∀ raw st, ccHandler1 raw (.httpError st) = (200, ccZero1 (ccCleanStr raw)))
    ∧ (∀ raw p, (p.errorMessage || p.invalidUsernameText) = true →
        ccHandler1 raw (.page p) = (200, ccZero1 (ccCleanStr raw)))
    ∧ (∀ raw p, p.userDetailsContainer = false →
        ccHandler2 raw (.page p) = .err 404 "User not found")
    ∧ (∀ raw, ccHandler2 raw (.httpError (some 429)) = .err 429 "Rate limit exceeded")
    ∧ (∀ raw, ccHandler2 raw (.httpError (some 404)) = .err 404 "User not found")
    ∧ (∀ raw, ccHandler2 raw (.httpError none)
        = .err 500 ("Failed to fetch CodeChef stats"))
    ∧ (∀ raw : String, ∀ s : Nat, s ≠ 429 → s ≠ 404 →
        ccHandler2 raw (.httpError (some s))
          = .err s ("Failed to fetch CodeChef stats")) := by
  refine ⟨fun raw st => rfl, fun raw p hp => ?_, fun raw p hp => ?_,
    fun raw => rfl, fun raw => rfl, fun raw => rfl, fun raw s h429 h404 => ?_⟩
  · simp [ccHandler1, hp]
  · simp [ccHandler2, hp]
  · simp only [ccHandler2]

/-- C2, witness for the amended claim at concrete inputs, covering the
zero-stats path of variant 1, the missing-container path of variant 2 and
the generic status pass-through of variant 2 at an upstream 503. -/
theorem c2_codechef_failure_amended_witness :
    ccHandler1 "ghost" (.page ccFailPage1) = (200, ccZero1 "ghost")
    ∧ ccHandler2 "ghost" (.page ccGhostPage) = .err 404 "User not found"
    ∧ ccHandler2 "ghost" (.httpError (some 503))
        = .err 503 ("Failed to fetch CodeChef stats") :=
  ⟨c2_codechef_failure_amended.2.1 "ghost" ccFailPage1 rfl,
   c2_codechef_failure_amended.2.2.1 "ghost" ccGhostPage rfl,
   c2_codechef_failure_amended.2.2.2.2.2.2 "ghost" 503 (by decide) (by decide)⟩

/-- C10: the total field of a CodeChef response is the constant 5000 for
every upstream outcome — variant 1 emits it on both its success and its
catch path, and every stats body variant 2 emits carries it; it is never
computed from the upstream response. -/
theorem c10_total_constant :
    (∀ raw f, ((ccHandler1 raw f).2).total = 5000)
    ∧ (∀ raw f s, ccHandler2 raw f = .stats s → s.total = 5000) := by
  constructor
  · intro raw f
    cases f with
    | httpError st => rfl
    | page p =>
      by_cases hp : (p.errorMessage || p.invalidUsernameText) = true
      · simp only [ccHandler1, hp]
        rfl
      · have hp' : (p.errorMessage || p.invalidUsernameText) = false :=
          Bool.not_eq_true _ ▸ Bool.of_not_eq_true hp
        simp only [ccHandler1, hp']
        rfl
  · intro raw f s h
    cases f with
    | httpError st =>
      exfalso
      simp only [ccHandler2] at h
      split at h <;> exact CCResult2.noConfusion h
    | page p =>
      by_cases hp : p.userDetailsContainer = false
      · exfalso
        simp only [ccHandler2] at h
        rw [if_pos hp] at h
        exact CCResult2.noConfusion h
      · simp only [ccHandler2] at h
        rw [if_neg hp] at h
        injection h with h2
        rw [← h2]

/-- C10, witness: a concrete successful variant 2 scrape, whose stats body
carries total 5000. -/
theorem c10_total_constant_witness :
    ({ solved := 0, total := 5000, rank := "123", rating := 1500,
       recentSubmissions := [], monthlyProgress := initMonthly } : CCStats2).total
      = 5000 :=
  c10_total_constant.2 "bob" (.page ccOkPage)
    { solved := 0, total := 5000, rank := "123", rating := 1500,
      recentSubmissions := [], monthlyProgress := initMonthly }
    (by decide)

/-- C6: for every successful LeetCode fetch, the solved field of the 200
response equals the sum of the count values across the acSubmissionNum
difficulty buckets. -/
theorem c6_solved_sum (raw : String) (d : LCData) (user : LCUser)
    (recent : Option (List LCRecent))
    (hv : lcValid (lcCleanStr raw).data = true)
    (hm : d.matchedUser = some user) :
    lcSolvedOf (getLeetCodeStats raw (.ok d recent))
      = some user.acSubmissionNum.sum := by
  simp only [getLeetCodeStats, hm]
  rw [if_neg (not_not_intro hv)]
  simp only [lcSolvedOf, lcStatsOf]
  rw [← List.sum_eq_foldl]

/-- C6, witness: the spec scenario with acSubmissionNum counts 10 and 5
yields solved 15. -/
theorem c6_solved_sum_witness :
    lcSolvedOf (getLeetCodeStats "alice" (.ok lcAliceData none)) = some 15 := by
  rw [c6_solved_sum "alice" lcAliceData lcAliceUser none (by decide) rfl]
  decide

/-- C7: the LeetCode handler maps an upstream 429 to a 429 Rate limit
exceeded response (RateLimited), an upstream 403 to a 403 response, an
UpstreamError of the spec taxonomy, and an upstream 404 as well as an
empty matchedUser to a 404 User not found response (NotFound). -/
theorem c7_error_taxonomy (raw : String)
    (hv : lcValid (lcCleanStr raw).data = true) :
    (getLeetCodeStats raw (.fail1 (some 429)) = .err 429 "Rate limit exceeded"
      ∧ reasonOfStatus (lcStatusOf (getLeetCodeStats raw (.fail1 (some 429))))
          = some .RateLimited)
    ∧ (getLeetCodeStats raw (.fail1 (some 403)) = .err 403 "Access denied"
      ∧ reasonOfStatus (lcStatusOf (getLeetCodeStats raw (.fail1 (some 403))))
          = some .UpstreamError)
    ∧ (getLeetCodeStats raw (.fail1 (some 404)) = .err 404 "User not found"
      ∧ reasonOfStatus 404 = some .NotFound)
    ∧ (∀ d recent, d.matchedUser = none →
        getLeetCodeStats raw (.ok d recent) = .err 404 "User not found") := by
  have h429 : getLeetCodeStats raw (.fail1 (some 429))
      = .err 429 "Rate limit exceeded" := by
    simp only [getLeetCodeStats]
    rw [if_neg (not_not_intro hv)]
    rfl
  have h403 : getLeetCodeStats raw (.fail1 (some 403)) = .err 403 "Access denied" := by
    simp only [getLeetCodeStats]
    rw [if_neg (not_not_intro hv)]
    rfl
  have h404 : getLeetCodeStats raw (.fail1 (some 404)) = .err 404 "User not found" := by
    simp only [getLeetCodeStats]
    rw [if_neg (not_not_intro hv)]
    rfl
  refine ⟨⟨h429, ?_⟩, ⟨h403, ?_⟩, ⟨h404, by decide⟩, ?_⟩
  · rw [h429]
    decide
  · rw [h403]
    decide
  · intro d recent hm
    simp only [getLeetCodeStats, hm]
    rw [if_neg (not_not_intro hv)]

/-- C7, witness: concrete instances of the 429 mapping and of the
empty-matchedUser mapping. -/
theorem c7_error_taxonomy_witness :
    getLeetCodeStats "alice" (.fail1 (some 429)) = .err 429 "Rate limit exceeded"
    ∧ getLeetCodeStats "alice" (.ok ⟨none, []⟩ none) = .err 404 "User not found" :=
  ⟨(c7_error_taxonomy "alice" (by decide)).1.1,
   (c7_error_taxonomy "alice" (by decide)).2.2.2 ⟨none, []⟩ none rfl⟩

/-- C5: every successful LeetCode stats body, and the stats body of every
variant 1 CodeChef response (success or fallback), carries a
monthlyProgress whose keys are exactly the twelve standard three-letter
months in order, with every value a natural number, hence at least 0. -/
theorem c5_monthly_keys :
    (∀ raw up s, getLeetCodeStats raw up = .stats s →
        s.monthlyProgress.map Prod.fst = monthNames
        ∧ ∀ v ∈ s.monthlyProgress.map Prod.snd, 0 ≤ v)
    ∧ (∀ raw f, ((ccHandler1 raw f).2).monthlyProgress.map Prod.fst = monthNames
        ∧ ∀ v ∈ ((ccHandler1 raw f).2).monthlyProgress.map Prod.snd, 0 ≤ v) := by
  constructor
  · intro raw up s h
    by_cases hv : lcValid (lcCleanStr raw).data = true
    · cases up with
      | fail1 st =>
        exfalso
        simp only [getLeetCodeStats] at h
        rw [if_neg (not_not_intro hv)] at h
        exact lcCatch_ne_stats st s h
      | ok1fail2 d st =>
        exfalso
        simp only [getLeetCodeStats] at h
        rw [if_neg (not_not_intro hv)] at h
        cases hm : d.matchedUser with
        | none =>
          rw [hm] at h
          exact LCResult.noConfusion h
        | some user =>
          rw [hm] at h
          exact lcCatch_ne_stats st s h
      | ok d recent =>
        simp only [getLeetCodeStats] at h
        rw [if_neg (not_not_intro hv)] at h
        cases hm : d.matchedUser with
        | none =>
          rw [hm] at h
          exact LCResult.noConfusion h
        | some user =>
          rw [hm] at h
          injection h with h2
          rw [← h2]
          exact ⟨keys_lcBuildMonthly user.submissionCalendar, fun v _ => Nat.zero_le v⟩
    · exfalso
      simp only [getLeetCodeStats] at h
      rw [if_pos hv] at h
      exact LCResult.noConfusion h
  · intro raw f
    cases f with
    | httpError st =>
      exact ⟨keys_initMonthly, fun v _ => Nat.zero_le v⟩
    | page p =>
      by_cases hp : (p.errorMessage || p.invalidUsernameText) = true
      · refine ⟨?_, fun v _ => Nat.zero_le v⟩
        simp only [ccHandler1, hp, if_true]
        exact keys_initMonthly
      · have hp' : (p.errorMessage || p.invalidUsernameText) = false :=
          Bool.eq_false_iff.mpr hp
        refine ⟨?_, fun v _ => Nat.zero_le v⟩
        simp only [ccHandler1, hp', Bool.false_eq_true, if_false]
        exact keys_ccMonthly1 (ccRecent1 p.submissions)

/-- C5, witness: the stats body of the concrete successful fetch of the
spec scenario has exactly the twelve month keys. -/
theorem c5_monthly_keys_witness :
    (lcStatsOf lcAliceData lcAliceUser none).monthlyProgress.map Prod.fst
      = monthNames :=
  (c5_monthly_keys.1 "alice" (.ok lcAliceData none)
    (lcStatsOf lcAliceData lcAliceUser none) (by decide)).1

/-- C4: the combined recent feed is the flattening of the three platforms
recentSubmissions tagged with their platform names, sorted descending by
timestamp and truncated to at most five elements: its length is at most
five, it is pairwise descending, and it is the five-element prefix of a
descending-sorted permutation of the tagged flattening. -/
theorem c4_combinedRecent (r : FRecord) :
    (getAllRecentSubmissions r).length ≤ 5
    ∧ List.Pairwise tsGE (getAllRecentSubmissions r)
    ∧ ∃ full, full.Perm (taggedSubmissions r)
        ∧ List.Pairwise tsGE full
        ∧ getAllRecentSubmissions r = full.take 5 := by
  refine ⟨List.length_take_le 5 _,
    List.Pairwise.sublist (List.take_sublist 5 _)
      (List.sorted_insertionSort tsGE (taggedSubmissions r)),
    List.insertionSort tsGE (taggedSubmissions r),
    List.perm_insertionSort tsGE (taggedSubmissions r),
    List.sorted_insertionSort tsGE (taggedSubmissions r), rfl⟩

/-- C9: when the text a count is extracted from contains no decimal digit,
every numeric extraction defaults to 0: the section sums of both CodeChef
variants are 0, and both parse helpers (parseInt-or-0 and
first-number-or-0) return 0.  All parsing in the model is total, so no
error can propagate. -/
theorem c9_parse_default_zero :
    (∀ entries : List (String × String),
        (∀ e ∈ entries, ∀ c ∈ (e.2).data, c.isDigit = false) →
        ccSolvedSection entries = 0)
    ∧ (∀ entries : List (String × String),
        (∀ e ∈ entries, ∀ c ∈ (e.2).data, c.isDigit = false) →
        ccSolved2 entries = 0)
    ∧ (∀ s : String, (∀ c ∈ s.data, c.isDigit = false) →
        parseIntOr0 s.data = 0 ∧ firstNumOr0 s.data = 0) := by
  have hTrimSplit : ∀ s : List Char, (∀ c ∈ s, c.isDigit = false) →
      ∀ c ∈ jsTrim (splitParen s), c.isDigit = false := by
    intro s hs c hc
    exact hs c (mem_of_mem_takeWhile (mem_of_mem_jsTrim hc))
  refine ⟨?_, ?_, fun s hs =>
    ⟨parseIntOr0_zero_of_digitFree hs, firstNumOr0_zero_of_digitFree hs⟩⟩
  · intro entries h
    unfold ccSolvedSection
    have aux : ∀ es : List (String × String),
        (∀ e ∈ es, ∀ c ∈ (e.2).data, c.isDigit = false) →
        ∀ acc : Nat, es.foldl (fun acc e =>
          if containsSub (("Fully Solved").data) e.1.data
              || containsSub (("Partially Solved").data) e.1.data
          then acc + firstNumOr0 e.2.data
          else acc) acc = acc := by
      intro es
      induction es with
      | nil => intro _ acc; rfl
      | cons e es ih =>
        intro hh acc
        rw [List.foldl_cons]
        have hz : firstNumOr0 e.2.data = 0 :=
          firstNumOr0_zero_of_digitFree (hh e (List.mem_cons_self e es))
        have hstep : (if containsSub (("Fully Solved").data) e.1.data
            || containsSub (("Partially Solved").data) e.1.data
            then acc + firstNumOr0 e.2.data
            else acc) = acc := by
          rw [hz]
          split <;> rfl
        rw [hstep]
        exact ih (fun x hx => hh x (List.mem_cons_of_mem e hx)) acc
    exact aux entries h 0
  · intro entries h
    unfold ccSolved2
    have aux : ∀ es : List (String × String),
        (∀ e ∈ es, ∀ c ∈ (e.2).data, c.isDigit = false) →
        ∀ acc : Int, es.foldl (fun acc e =>
          let c := parseIntOr0 (jsTrim (splitParen e.2.data))
          (acc + (if containsSub (("Fully Solved").data) e.1.data then c else 0))
            + (if containsSub (("Partially Solved").data) e.1.data then c else 0))
          acc = acc := by
      intro es
      induction es with
      | nil => intro _ acc; rfl
      | cons e es ih =>
        intro hh acc
        rw [List.foldl_cons]
        have hz : parseIntOr0 (jsTrim (splitParen e.2.data)) = 0 :=
          parseIntOr0_zero_of_digitFree
            (hTrimSplit e.2.data (hh e (List.mem_cons_self e es)))
        have hstep : (let c := parseIntOr0 (jsTrim (splitParen e.2.data))
            (acc + (if containsSub (("Fully Solved").data) e.1.data then c else 0))
              + (if containsSub (("Partially Solved").data) e.1.data then c else 0))
            = acc := by
          simp only [hz]
          split <;> split <;> simp
        rw [hstep]
        exact ih (fun x hx => hh x (List.mem_cons_of_mem e hx)) acc
    exact aux entries h 0

/-- C9, witness: a digit-free count text N/A parses to 0 everywhere. -/
theorem c9_parse_default_zero_witness :
    ccSolvedSection [("Fully Solved", "N/A")] = 0
    ∧ ccSolved2 [("Fully Solved", "N/A")] = 0
    ∧ parseIntOr0 ("N/A").data = 0
    ∧ firstNumOr0 ("N/A").data = 0 :=
  ⟨c9_parse_default_zero.1 [("Fully Solved", "N/A")] (by decide),
   c9_parse_default_zero.2.1 [("Fully Solved", "N/A")] (by decide),
   (c9_parse_default_zero.2.2 "N/A" (by decide)).1,
   (c9_parse_default_zero.2.2 "N/A" (by decide)).2⟩

/-- C3, counterexample: on a 40-character handle both normalizers return
the handle unchanged — a nonempty string of length 40 — not the empty
string the claim requires. -/
theorem c3_long_handle_counterexample :
    lcCleanStr w40 = w40 ∧ (lcCleanStr w40).data.length = 40
    ∧ lcCleanStr w40 ≠ "" ∧ ccCleanStr w40 = w40 := by
  decide

/-- C3, amended: a handle whose stripped form exceeds 39 characters is
not mapped to the empty string by either normalizer; the LeetCode handler
instead rejects it at the HTTP boundary with a 400 Invalid username
format response before any upstream call, and the CodeChef normalizer
passes it through with no length restriction. -/
theorem c3_long_handle_amended :
    (∀ raw : String, ∀ f : LCUpstream, 39 < (lcCleanStr raw).data.length →
        lcCleanStr raw ≠ ""
        ∧ getLeetCodeStats raw f = .err 400 "Invalid username format")
    ∧ (∀ raw : String, 39 < (ccCleanStr raw).data.length → ccCleanStr raw ≠ "") := by
  constructor
  · intro raw f hlen
    constructor
    · intro he
      rw [he] at hlen
      exact absurd hlen (by decide)
    · have hval : lcValid (lcCleanStr raw).data = false := by
        unfold lcValid
        rw [decide_eq_false (by omega : ¬ (lcCleanStr raw).data.length ≤ 39)]
        simp
      simp only [getLeetCodeStats]
      rw [if_pos (by simp [hval])]
  · intro raw hlen he
    rw [he] at hlen
    exact absurd hlen (by decide)

/-- C3, witness for the amended claim: the 40-character handle is kept
nonempty by both normalizers and rejected by the handler with 400. -/
theorem c3_long_handle_amended_witness :
    lcCleanStr w40 ≠ ""
    ∧ getLeetCodeStats w40 (.fail1 none) = .err 400 "Invalid username format" :=
  c3_long_handle_amended.1 w40 (.fail1 none) (by decide)

/-- C8: for every handle made of the allowed characters, the LeetCode
cleaning chain strips the scheme, the www. prefix, the leetcode.com
profile-path prefix and the trailing slash from the profile URL form of
the handle and returns the bare handle. -/
theorem c8_url_normalize (h : String)
    (hall : ∀ c ∈ h.data, allowedChar c = true) :
    lcCleanStr ("https://leetcode.com/u/" ++ h ++ "/") = h := by
  have hcol : (':') ∉ h.data := fun hm => absurd (hall _ hm) (by decide)
  have hdot : ('.') ∉ h.data := fun hm => absurd (hall _ hm) (by decide)
  have hT2 : ('.') ∉ h.data ++ ['/'] := by
    intro hc
    rcases List.mem_append.mp hc with hh | hs
    · exact hdot hh
    · exact absurd hs (by decide)
  have hT1 : (':') ∉ ("leetcode.com/u/").data ++ (h.data ++ ['/']) := by
    intro hc
    rcases List.mem_append.mp hc with hA | hB
    · exact absurd hA (by decide)
    · rcases List.mem_append.mp hB with hh | hs
      · exact hcol hh
      · exact absurd hs (by decide)
  have hdata : ("https://leetcode.com/u/" ++ h ++ "/").data
      = ("https://").data ++ (("leetcode.com/u/").data ++ (h.data ++ ['/'])) := by
    rw [String.data_append, String.data_append]
    rw [show ("https://leetcode.com/u/").data
      = ("https://").data ++ ("leetcode.com/u/").data by decide]
    rw [show ("/").data = ['/'] from rfl]
    simp [List.append_assoc]
  have s1 : removeAll httpPats (("https://").data
      ++ (("leetcode.com/u/").data ++ (h.data ++ ['/'])))
      = removeAll httpPats (("leetcode.com/u/").data ++ (h.data ++ ['/'])) :=
    removeAll_consume (by decide)
  have s2 : removeAll httpPats (("leetcode.com/u/").data ++ (h.data ++ ['/']))
      = ("leetcode.com/u/").data ++ (h.data ++ ['/']) := by
    apply removeAll_id_of_missing
    intro p hp
    have hp' : p = ("https://").data ∨ p = ("http://").data := by
      simpa [httpPats] using hp
    rcases hp' with rfl | rfl
    · exact ⟨':', by decide, hT1⟩
    · exact ⟨':', by decide, hT1⟩
  have s3 : removeAll wwwPats (("leetcode.com/u/").data ++ (h.data ++ ['/']))
      = ("leetcode.com/u/").data ++ removeAll wwwPats (h.data ++ ['/']) := by
    apply removeAll_append_of_headChar
    intro p hp c hc
    have hp' : p = ("www.").data := by simpa [wwwPats] using hp
    subst hp'
    have h0 : (some 'w' : Option Char) = some c := hc
    have hcw : c = 'w' := (Option.some.inj h0).symm
    subst hcw
    decide
  have s4 : removeAll wwwPats (h.data ++ ['/']) = h.data ++ ['/'] := by
    apply removeAll_id_of_missing
    intro p hp
    have hp' : p = ("www.").data := by simpa [wwwPats] using hp
    subst hp'
    exact ⟨'.', by decide, hT2⟩
  have s5 : removeAll lcPats (("leetcode.com/u/").data ++ (h.data ++ ['/']))
      = removeAll lcPats (h.data ++ ['/']) :=
    removeAll_consume (by decide)
  have s6 : removeAll lcPats (h.data ++ ['/']) = h.data ++ ['/'] := by
    apply removeAll_id_of_missing
    intro p hp
    have hp' : p = ("leetcode.com/u/").data ∨ p = ("leetcode.com/").data := by
      simpa [lcPats] using hp
    rcases hp' with rfl | rfl
    · exact ⟨'.', by decide, hT2⟩
    · exact ⟨'.', by decide, hT2⟩
  have s7 : stripTrailingSlash (h.data ++ ['/']) = h.data := by
    unfold stripTrailingSlash
    rw [List.getLast?_concat, if_pos rfl]
    exact List.dropLast_concat
  have s8 : jsTrim h.data = h.data :=
    jsTrim_self (fun c hc => allowedChar_not_ws (hall c hc))
  show (⟨lcClean ("https://leetcode.com/u/" ++ h ++ "/").data⟩ : String) = h
  rw [hdata]
  unfold lcClean
  rw [s1, s2, s3, s4, s5, s6, s7, s8]

/-- C8, witness: the profile URL of the handle alice normalizes to
alice. -/
theorem c8_url_normalize_witness :
    lcCleanStr ("https://leetcode.com/u/" ++ "alice" ++ "/") = "alice" :=
  c8_url_normalize "alice" (by decide)

end SkillSync
